import Mathlib

/-!
Verification development for the OOSIT backtesting system.

This file gives a shallow embedding, in Lean, of the parts of the code base
that the frozen claims are about:

* `oosit_utils/data/manager.py` (the Data Store: accessor factory,
  index resolution, the negative-index guard, redirection and restore,
  the on-demand indicator cache),
* `oosit_utils/indicators/technical.py` (moving average, EMA, RSI, MAX),
* `oosit_utils/data/validator.py` (per-file validation),
* `oosit_utils/backtesting/engine.py` (normalization, return, drawdown,
  batch orchestration with per-strategy error isolation).

Conventions of the embedding:

* Python floats are modelled as rationals; a float NaN cell is modelled as
  `none` in an `Option Rat`.
* Fallible Python code (raising exceptions) is modelled with `Except`.
* Pandas dataframes are modelled as a date column plus an association list
  of named numeric columns; Python dicts are association lists with
  update-or-append assignment semantics.
* Dates are triples (year, month, day) with lexicographic comparison,
  matching the total order on pandas timestamps; the master date grids are
  plain lists of such dates.
-/

namespace OOSIT

/-- Calendar date, mirroring a pandas Timestamp at day resolution. -/
structure Date where
  y : Int
  m : Int
  d : Int
deriving DecidableEq, Repr

/-- Total-order comparison of dates (lexicographic on year, month, day),
mirroring comparison of pandas Timestamps. -/
def Date.ltb (a b : Date) : Bool :=
  if a.y ≠ b.y then decide (a.y < b.y)
  else if a.m ≠ b.m then decide (a.m < b.m)
  else decide (a.d < b.d)

/-- The Python `start_date.replace(day=1)` used for monthly grids. -/
def Date.firstOfMonth (a : Date) : Date :=
  { a with d := 1 }

/-- The month delta `12 * (date2.year - date1.year) + (date2.month - date1.month)`
from `get_value` in `manager.py`. -/
def monthsDiff (date1 date2 : Date) : Int :=
  12 * (date2.y - date1.y) + (date2.m - date1.m)

/-- Association-list lookup with string keys; models Python dict read
(`d[k]` / `k in d`). -/
def alookup {β : Type} (l : List (String × β)) (k : String) : Option β :=
  match l with
  | [] => none
  | (k0, v) :: rest => if k0 = k then some v else alookup rest k

/-- Association-list assignment; models Python dict write `d[k] = v`
(update the existing binding, else append a new one). -/
def aset {β : Type} (l : List (String × β)) (k : String) (v : β) :
    List (String × β) :=
  match l with
  | [] => [(k, v)]
  | (k0, v0) :: rest =>
      if k0 = k then (k0, v) :: rest else (k0, v0) :: aset rest k v

/-- Models Python `dict.update(other)`: assign every binding of `other`. -/
def aupdate {β : Type} (l other : List (String × β)) : List (String × β) :=
  match other with
  | [] => l
  | (k, v) :: rest => aupdate (aset l k v) rest

/-- Membership of a key, models Python `k in d`. -/
def amem {β : Type} (l : List (String × β)) (k : String) : Bool :=
  (alookup l k).isSome

/-- Python list indexing `l[i]` for a (possibly negative) index: a negative
index wraps to the tail (`l[len + i]`), an index out of range raises
IndexError. -/
def pyIndex {α : Type} (l : List α) (i : Int) : Option α :=
  if i < 0 then
    let j := (l.length : Int) + i
    if j < 0 then none else l.get? j.toNat
  else
    l.get? i.toNat

/-- The loop body of `DataManager._binary_search_date` (`manager.py`,
lines 404-417).  `left`/`right` are the Python ints of the while loop; the
structural `fuel` bounds the number of iterations (the caller passes more
fuel than the loop can ever consume, so the `fuel = 0` leaf is dead code
reusing the not-found message). -/
def bsAux (dates : List Date) (target : Date) :
    Nat → Int → Int → Except String Nat
  | 0, _, _ => .error "Date not found in available date range"
  | fuel + 1, left, right =>
    if left ≤ right then
      let mid := (left + right) / 2
      match dates.get? mid.toNat with
      | none => .error "index out of range"
      | some v =>
        if v = target then .ok mid.toNat
        else if Date.ltb v target then bsAux dates target fuel (mid + 1) right
        else bsAux dates target fuel left (mid - 1)
    else .error "Date not found in available date range"

/-- `DataManager._binary_search_date(date_list, target_date)`: exact-match
binary search over a date list, raising when no exact match exists. -/
def binarySearchDate (dates : List Date) (target : Date) : Except String Nat :=
  bsAux dates target (dates.length + 1) 0 ((dates.length : Int) - 1)

/-- Soundness of the search loop: an index is returned only when the date at
that index is exactly the target. -/
theorem bsAux_ok_sound (dates : List Date) (target : Date) :
    ∀ fuel left right i, bsAux dates target fuel left right = .ok i →
      dates.get? i = some target := by
  intro fuel
  induction fuel with
  | zero => intro left right i h; simp [bsAux] at h
  | succ fuel ih =>
    intro left right i h
    rw [bsAux] at h
    by_cases hlr : left ≤ right
    · simp only [if_pos hlr] at h
      cases hget : dates.get? ((left + right) / 2).toNat with
      | none => rw [hget] at h; exact absurd h (by simp)
      | some v =>
        rw [hget] at h
        by_cases hv : v = target
        · simp only [if_pos hv] at h
          cases h; rw [hget, hv]
        · simp only [if_neg hv] at h
          by_cases hlt : Date.ltb v target
          · simp only [if_pos hlt] at h; exact ih _ _ _ h
          · simp only [if_neg hlt] at h; exact ih _ _ _ h
    · simp only [if_neg hlr] at h
      exact absurd h (by simp)

/-- If the target date is absent from the list, the search never succeeds. -/
theorem binarySearchDate_not_mem (dates : List Date) (target : Date)
    (habs : ¬ target ∈ dates) :
    ∀ i, binarySearchDate dates target ≠ .ok i := by
  intro i h
  exact habs (List.get?_mem (bsAux_ok_sound dates target _ _ _ i h))

/-! ## Dataframes

A pandas dataframe as the Data Store sees it: a `Date` column plus named
numeric columns.  A numeric cell is `Option Rat`: `none` models a float NaN
(indicator columns computed on demand contain NaN before their lookback is
filled; validated source columns contain none). -/

/-- A loaded asset table. -/
structure DataFrame where
  dates : List Date
  cols : List (String × List (Option ℚ))
deriving DecidableEq, Repr

/-! ## Indicator engine (`technical.py`)

Arithmetic on `Option Rat` mirrors IEEE NaN propagation through numpy
arithmetic: any operation with a NaN operand yields NaN, and ordered
comparisons against NaN are false. -/

/-- NaN-propagating addition. -/
def oadd : Option ℚ → Option ℚ → Option ℚ
  | some a, some b => some (a + b)
  | _, _ => none

/-- NaN-propagating sum, as in `np.sum` over a float slice. -/
def osum (l : List (Option ℚ)) : Option ℚ :=
  l.foldl oadd (some 0)

/-- NaN-propagating division by a scalar. -/
def odivc (a : Option ℚ) (q : ℚ) : Option ℚ :=
  a.map (fun x => x / q)

/-- The slice `l[a:b]` of a numpy array (for `0 ≤ a ≤ b ≤ len`). -/
def slice {α : Type} (l : List α) (a b : Nat) : List α :=
  (l.drop a).take (b - a)

/-- `TechnicalIndicators._compute_moving_average` (`technical.py`, lines
122-147), the branch for a table with Open and Close columns: for
`i ≥ period - 1`, today's Open plus the previous `period - 1` Closes,
divided by `period`; earlier indices stay NaN, as does every index when the
table is shorter than `period`.  The `i = 0` branch of the source (reachable
only when `period ≤ 1`) is mirrored verbatim.  The degenerate `period = 0`
(where Python's `range(-1, n)` and division by zero produce float
artifacts) is outside the embedding; every theorem assumes `period ≥ 1`. -/
def computeMovingAverage (openV closeV : List (Option ℚ)) (period : Nat) :
    List (Option ℚ) :=
  let n := openV.length
  if period ≤ n then
    (List.range n).map (fun i =>
      if period - 1 ≤ i then
        if i = 0 then openV.getD 0 none
        else odivc (oadd (openV.getD i none)
                         (osum (slice closeV (i - (period - 1)) i)))
                   (period : ℚ)
      else none)
  else List.replicate n none

/-- Pandas `rolling(window).mean()` over a float column: NaN until the
window is filled, NaN whenever the window holds a NaN.  This is the
fallback branch of `_compute_moving_average` for tables without
Open/Close columns. -/
def rollingMean (vals : List (Option ℚ)) (window : Nat) : List (Option ℚ) :=
  (List.range vals.length).map (fun i =>
    if i + 1 < window then none
    else odivc (osum (slice vals (i + 1 - window) (i + 1))) (window : ℚ))

/-- Maximum of the non-NaN values of a window (`none` when all are NaN),
matching pandas `max()` with `skipna`. -/
def windowMax (l : List (Option ℚ)) : Option ℚ :=
  match l.filterMap id with
  | [] => none
  | v :: rest => some (rest.foldl max v)

/-- `TechnicalIndicators._compute_max` (`technical.py`, lines 110-120):
trailing maximum over `maxLookbackDays` bars with `min_periods=1` when the
lookback is positive, else an expanding (unbounded) running maximum. -/
def computeMax (vals : List (Option ℚ)) (maxLookbackDays : Int) :
    List (Option ℚ) :=
  let window : Nat := if 0 < maxLookbackDays then maxLookbackDays.toNat
                      else vals.length
  (List.range vals.length).map (fun i =>
    windowMax (slice vals (i + 1 - window) (i + 1)))

/-- One step of `TechnicalIndicators._compute_ema` (`technical.py`, lines
249-255): a NaN input carries the previous EMA forward; a valid input after
a valid EMA applies the multiplier `alpha`; if the previous EMA is still
NaN the output stays NaN. -/
def emaStep (alpha : ℚ) (prev p : Option ℚ) : Option ℚ :=
  match p with
  | none => prev
  | some x =>
    match prev with
    | some pe => some ((x - pe) * alpha + pe)
    | none => none

/-- The EMA recursion from a given previous value over the remaining
inputs. -/
def emaFrom (alpha : ℚ) (prev : Option ℚ) : List (Option ℚ) → List (Option ℚ)
  | [] => []
  | p :: rest => emaStep alpha prev p :: emaFrom alpha (emaStep alpha prev p) rest

/-- The first-non-NaN scan of `_compute_ema` (`technical.py`, lines
224-229). -/
def firstSomeIdx : List (Option ℚ) → Option Nat
  | [] => none
  | some _ :: _ => some 0
  | none :: rest => (firstSomeIdx rest).map (fun j => j + 1)

/-- `TechnicalIndicators._compute_ema` (`technical.py`, lines 218-257).
Finds the first non-NaN index `f`; returns all NaN when there is none, when
fewer than `period` entries remain from `f`, or when the `period` entries
starting at `f` contain a NaN (the source drops NaN from that fixed block
and then requires `period` survivors).  Otherwise seeds with the simple
mean of that block at index `f + period - 1` and recurses with multiplier
`2 / (period + 1)`. -/
def computeEma (prices : List (Option ℚ)) (period : Nat) : List (Option ℚ) :=
  let n := prices.length
  match firstSomeIdx prices with
  | none => List.replicate n none
  | some f =>
    if n - f < period then List.replicate n none
    else
      let block := slice prices f (f + period)
      let valid := block.filterMap id
      if valid.length < period then List.replicate n none
      else
        let seed : ℚ := valid.sum / (period : ℚ)
        List.replicate (f + period - 1) none ++
          some seed :: emaFrom (2 / ((period : ℚ) + 1)) (some seed)
                               (prices.drop (f + period))

/-- RSI from a (gain, loss) average pair (`technical.py`, lines 199-203 and
210-214): exactly 100 when the average loss is zero, else
`100 - 100 / (1 + RS)` with `RS = avgGain / avgLoss`. -/
def rsiOf (g l : ℚ) : ℚ :=
  if l = 0 then 100 else 100 - 100 / (1 + g / l)

/-- One step of Wilder's smoothing: `avg = (avg * (period - 1) + today) / period`
applied to the gain and loss components. -/
def wilderStep (period : Nat) (prev gl : ℚ × ℚ) : ℚ × ℚ :=
  ((prev.1 * ((period : ℚ) - 1) + gl.1) / (period : ℚ),
   (prev.2 * ((period : ℚ) - 1) + gl.2) / (period : ℚ))

/-- Wilder's smoothing recursion over the remaining (gain, loss) inputs. -/
def wilderFrom (period : Nat) (prev : ℚ × ℚ) :
    List (ℚ × ℚ) → List (ℚ × ℚ)
  | [] => []
  | x :: rest => wilderStep period prev x :: wilderFrom period (wilderStep period prev x) rest

/-- Per-index gains and losses (`technical.py`, lines 178-184):
`deltas[0] = 0`, `deltas[i] = prices[i] - prices[i-1]`; the gain is the
positive part and the loss the negated negative part.  A NaN delta fails
both comparisons of `np.where`, giving gain 0 and loss 0. -/
def gainsLosses (prices : List (Option ℚ)) : List (ℚ × ℚ) :=
  (List.range prices.length).map (fun i =>
    if i = 0 then (0, 0)
    else
      match oadd (prices.getD i none) ((prices.getD (i - 1) none).map Neg.neg) with
      | none => (0, 0)
      | some d => (if 0 < d then d else 0, if d < 0 then -d else 0))

/-- The sequence `avg_gain[period], avg_gain[period+1], ...` paired with the
losses: the seed is the simple mean of `gains[1:period+1]` and
`losses[1:period+1]`, then Wilder's smoothing consumes the rest. -/
def rsiPairs (prices : List (Option ℚ)) (period : Nat) : List (ℚ × ℚ) :=
  let gl := gainsLosses prices
  let seedBlock := slice gl 1 (period + 1)
  let seed : ℚ × ℚ := ((seedBlock.map Prod.fst).sum / (period : ℚ),
                       (seedBlock.map Prod.snd).sum / (period : ℚ))
  seed :: wilderFrom period seed (gl.drop (period + 1))

/-- `TechnicalIndicators._compute_rsi` (`technical.py`, lines 169-216):
NaN before index `period` (and everywhere when the series is not longer
than `period`); from index `period` on, the RSI of the seeded and
Wilder-smoothed average gain/loss pairs.  The degenerate `period = 0`
(where Python's `np.mean([])` and division by zero produce float NaN/inf
artifacts) is outside the embedding; every theorem assumes `period ≥ 1`. -/
def computeRsi (prices : List (Option ℚ)) (period : Nat) : List (Option ℚ) :=
  let n := prices.length
  if period < n then
    List.replicate period none ++
      (rsiPairs prices period).map (fun p => some (rsiOf p.1 p.2))
  else List.replicate n none

/-- The default data column per source (`manager.py`, lines 58-62, read
with `dict.get(source, "Value")`). -/
def defaultLabel (source : String) : String :=
  if source = "yfinance" then "Open"
  else if source = "MacroMicro" then "Value"
  else if source = "FRED" then "Value"
  else "Value"

/-- Outcome of `TechnicalIndicators.compute_indicator`: a computed column,
`unrecognized` (Python returns None), or a propagated exception (a KeyError
from a missing source column). -/
inductive IndResult where
  | values (vals : List (Option ℚ))
  | unrecognized
  | raised (msg : String)
deriving DecidableEq, Repr

/-- Decimal digit-string parsing over characters (the `(\d+)` group of the
anchored regexes in `compute_indicator`). -/
def digitsToNat (cs : List Char) : Option Nat :=
  if cs ≠ [] ∧ cs.all Char.isDigit then
    some (cs.foldl (fun acc c2 => acc * 10 + (c2.toNat - 48)) 0)
  else none

/-- Parses the decimal suffix of an indicator name after a fixed stem, as
the anchored regex `^<stem>(\d+)$` of `compute_indicator` does (matching
performed over the name's characters). -/
def parseNatSuffix (s stem : String) : Option Nat :=
  if stem.data.isPrefixOf s.data then digitsToNat (s.data.drop stem.data.length)
  else none

/-- The column a name-based indicator reads: `Close` when present, else the
source's default column (the `try ... except KeyError` of
`_compute_rsi`). -/
def closeOrDefault (df : DataFrame) (source : String) :
    Option (List (Option ℚ)) :=
  match alookup df.cols "Close" with
  | some col => some col
  | none => alookup df.cols (defaultLabel source)

/-- `TechnicalIndicators.compute_indicator` (`technical.py`, lines 35-108),
restricted to the indicator families the claims exercise (MAX, moving
average, RSI, RSI EMA).  The remaining branches (STDEV, stochastics, MACD,
DMI) are omitted from the embedding; no claim depends on them.  Names
recognized by no branch yield `unrecognized`, which the Data Store turns
into its undefined-property error. -/
def computeIndicator (df : DataFrame) (source : String)
    (maxLookbackDays : Int) (name : String) : IndResult :=
  if name = "MAX" then
    match alookup df.cols (defaultLabel source) with
    | some col => .values (computeMax col maxLookbackDays)
    | none => .raised "KeyError"
  else
    match parseNatSuffix name "MA" with
    | some period =>
      -- `_compute_moving_average` tries Open/Close and falls back to a
      -- plain rolling mean of the default column on KeyError
      (match alookup df.cols "Open", alookup df.cols "Close" with
       | some openV, some closeV => .values (computeMovingAverage openV closeV period)
       | _, _ =>
         match alookup df.cols (defaultLabel source) with
         | some col => .values (rollingMean col period)
         | none => .raised "KeyError")
    | none =>
      let rsiPeriod : Option Nat :=
        if name = "RSI" then some 14 else parseNatSuffix name "RSI"
      match rsiPeriod with
      | some period =>
        (match closeOrDefault df source with
         | some col => .values (computeRsi col period)
         | none => .raised "KeyError")
      | none =>
        let emaPeriod : Option Nat :=
          if name = "RSI EMA" then some 14
          else if ("RSI".data.isPrefixOf name.data ∧
                   " EMA".data.isSuffixOf name.data) then
            digitsToNat ((name.data.drop 3).take (name.data.length - 7))
          else none
        match emaPeriod with
        | some period =>
          (match closeOrDefault df source with
           | some col => .values (computeEma (computeRsi col period) 9)
           | none => .raised "KeyError")
        | none => .unrecognized

/-! ## Data Store (`manager.py`)

The observable state of a `DataManager`: the dataframes, the filename
metadata (`get_value` re-extracts source and frequency from the filename on
every call; redirection never touches `self.filenames`), the numpy caches,
the per-frequency master grids and start offsets, and the redirection
backups. -/

/-- Data frequency parsed from a filename.  `get_value` raises for any
other frequency string; the embedding's type covers the two supported
values, so that unreachable branch has no counterpart here. -/
inductive Freq where
  | daily
  | monthly
deriving DecidableEq, Repr

/-- The attributes `get_value` extracts from a filename (and the entries of
`self.metadata`, which `get_value` never reads). -/
structure FileMeta where
  source : String
  frequency : Freq
deriving DecidableEq, Repr

/-- The mutable state of a `DataManager` instance. -/
structure Store where
  dataframes : List (String × DataFrame)
  filenames : List (String × FileMeta)
  dataArrays : List (String × List (Option ℚ))
  dateArrays : List (String × List Date)
  metadata : List (String × FileMeta)
  dailyDateRange : List Date
  monthlyDateRange : List Date
  dailyDataStartIndex : List (String × Nat)
  monthlyDataStartIndex : List (String × Nat)
  origDataframesBackup : List (String × DataFrame)
  origDailyIndicesBackup : List (String × Nat)
  origMonthlyIndicesBackup : List (String × Nat)
  useExtendedData : Bool
  maxLookbackDays : Int
  redirectDict : List (String × String)
deriving DecidableEq, Repr

/-- Accessor state captured by the closure `get_value` returned from
`get_data_accessor`: the backtest start date and the start index resolved
once per frequency grid.  It is immutable after creation. -/
structure AccessorCtx where
  startDate : Date
  dailyStartIndex : Option Nat
  monthlyStartIndex : Option Nat
deriving DecidableEq, Repr

/-- The errors `get_value` and `get_data_accessor` can raise. -/
inductive GErr where
  | dataNotFound
  | noDailyData
  | noMonthlyData
  | lookbackExceeded
  | pyIndexError
  | pyKeyError
  | undefinedProperty
  | dateNotFound
  | indicatorRaised (msg : String)
deriving DecidableEq, Repr

/-- A scalar returned by `get_value`: a number, a float NaN, or a date. -/
inductive GVal where
  | num (q : ℚ)
  | nan
  | date (d : Date)
deriving DecidableEq, Repr

/-- Reads a numeric cell as the scalar `get_value` returns. -/
def cellVal (c : Option ℚ) : GVal :=
  match c with
  | some q => .num q
  | none => .nan

/-- `DataManager.get_data_accessor` (`manager.py`, lines 177-200): resolve
the backtest start date into each existing frequency grid by exact-match
binary search (monthly after `replace(day=1)`), raising when a grid exists
but the date is not found; no per-asset structure is consulted.  The only
reachable error of `binarySearchDate` is its date-not-found ValueError. -/
def getDataAccessor (st : Store) (startDate : Date) : Except GErr AccessorCtx :=
  let dailyRes : Except GErr (Option Nat) :=
    if st.dailyDateRange.isEmpty then .ok none
    else
      match binarySearchDate st.dailyDateRange startDate with
      | .ok k => .ok (some k)
      | .error _ => .error .dateNotFound
  match dailyRes with
  | .error e => .error e
  | .ok dOpt =>
    let monthlyRes : Except GErr (Option Nat) :=
      if st.monthlyDateRange.isEmpty then .ok none
      else
        match binarySearchDate st.monthlyDateRange startDate.firstOfMonth with
        | .ok k => .ok (some k)
        | .error _ => .error .dateNotFound
    match monthlyRes with
    | .error e => .error e
    | .ok mOpt => .ok ⟨startDate, dOpt, mOpt⟩

/-- Name resolution at the top of `get_value` (`manager.py`, lines
214-219): in prefer-extended mode an existing `ext_`-variant shadows the
requested asset. -/
def resolveName (st : Store) (name : String) : String :=
  if st.useExtendedData ∧ amem st.dataframes ("ext_" ++ name) then
    "ext_" ++ name
  else name

/-- Index resolution of `get_value` (`manager.py`, lines 228-242): the
absolute data index before the negative-index guard.  Daily:
`daily_start_index + i - daily_data_start_index[asset]`.  Monthly: `i` is
first translated into a month delta between the daily-grid dates at the
accessor start and at the shifted position (Python list indexing there can
wrap for negative positions or raise IndexError), then combined with the
monthly start index and offset. -/
def resolveDataIndex (st : Store) (ctx : AccessorCtx) (freq : Freq)
    (actual : String) (i : Int) : Except GErr Int :=
  match freq with
  | .daily =>
    match ctx.dailyStartIndex with
    | none => .error .noDailyData
    | some dsi =>
      match alookup st.dailyDataStartIndex actual with
      | none => .error .pyKeyError
      | some off => .ok ((dsi : Int) + i - (off : Int))
  | .monthly =>
    match ctx.monthlyStartIndex with
    | none => .error .noMonthlyData
    | some msi =>
      match alookup st.monthlyDataStartIndex actual with
      | none => .error .pyKeyError
      | some off =>
        match ctx.dailyStartIndex with
        | none => .ok ((msi : Int) - (off : Int))
        | some dsi =>
          match pyIndex st.dailyDateRange (dsi : Int),
                pyIndex st.dailyDateRange ((dsi : Int) + i) with
          | some date1, some date2 =>
            .ok ((msi : Int) + monthsDiff date1 date2 - (off : Int))
          | _, _ => .error .pyIndexError

/-- `DataManager._get_property_value` (`manager.py`, lines 288-350): an
existing dataframe column answers directly (the second, duplicated
column-access try block of the source repeats the first and its KeyError is
passed over, so it adds nothing); else the composite-key numpy cache; else
the indicator engine runs, its result is cached as a new dataframe column
and a new `name_property` array entry, and only then is the requested index
read (so a caching write survives an IndexError on that read). -/
def getPropertyValue (st : Store) (name source : String) (idx : Nat)
    (prop : String) : Except GErr GVal × Store :=
  match alookup st.dataframes name with
  | none => (.error .pyKeyError, st)
  | some df =>
    match alookup df.cols prop with
    | some col =>
      (match col.get? idx with
       | some c => .ok (cellVal c)
       | none => .error .pyIndexError, st)
    | none =>
      let cacheKey := name ++ "_" ++ prop
      match alookup st.dataArrays cacheKey with
      | some arr =>
        (match arr.get? idx with
         | some c => .ok (cellVal c)
         | none => .error .pyIndexError, st)
      | none =>
        match computeIndicator df source st.maxLookbackDays prop with
        | .values vals =>
          let st1 : Store :=
            { st with
              dataframes := aset st.dataframes name
                              { df with cols := aset df.cols prop vals },
              dataArrays := aset st.dataArrays cacheKey vals }
          (match vals.get? idx with
           | some c => .ok (cellVal c)
           | none => .error .pyIndexError, st1)
        | .raised msg => (.error (.indicatorRaised msg), st)
        | .unrecognized => (.error .undefinedProperty, st)

/-- Property dispatch of `get_value` after the guard (`manager.py`, lines
249-284): the empty property reads the per-asset numpy cache (falling back
to the dataframe's default column), `Date` reads the date cache (falling
back to the Date column), anything else goes through
`_get_property_value`. -/
def getAtIndex (st : Store) (actual : String) (df : DataFrame)
    (meta : FileMeta) (idx : Nat) (prop : String) : Except GErr GVal × Store :=
  if prop = "" then
    (match alookup st.dataArrays actual with
     | some arr =>
       match arr.get? idx with
       | some c => .ok (cellVal c)
       | none => .error .pyIndexError
     | none =>
       match alookup df.cols (defaultLabel meta.source) with
       | none => .error .pyKeyError
       | some col =>
         match col.get? idx with
         | some c => .ok (cellVal c)
         | none => .error .pyIndexError, st)
  else if prop = "Date" then
    (match alookup st.dateArrays actual with
     | some arr =>
       match arr.get? idx with
       | some d => .ok (.date d)
       | none => .error .pyIndexError
     | none =>
       match df.dates.get? idx with
       | some d => .ok (.date d)
       | none => .error .pyIndexError, st)
  else getPropertyValue st actual meta.source idx prop

/-- The closure `get_value(name, date_range_index, optional_property)`
returned by `get_data_accessor` (`manager.py`, lines 202-286), returning
the result together with the Data Store state after the call. -/
def getValue (st : Store) (ctx : AccessorCtx) (name : String) (i : Int)
    (prop : String) : Except GErr GVal × Store :=
  let actual := resolveName st name
  match alookup st.dataframes actual with
  | none => (.error .dataNotFound, st)
  | some df =>
    match alookup st.filenames actual with
    | none => (.error .pyKeyError, st)
    | some meta =>
      match resolveDataIndex st ctx meta.frequency actual i with
      | .error e => (.error e, st)
      | .ok dataIndex =>
        if dataIndex < 0 then (.error .lookbackExceeded, st)
        else getAtIndex st actual df meta dataIndex.toNat prop

/-- One pair of `DataManager._apply_redirection` (`manager.py`, lines
359-386): when both assets are loaded, back up and overwrite the
original's dataframe, numpy arrays, metadata and start offsets with
(copies of) the substitute's; otherwise skip the pair with a warning.
`self.filenames` is never swapped, and composite-key indicator cache
entries are untouched. -/
def applyRedirectionPair (st : Store) (orig newName : String) : Store :=
  if amem st.dataframes orig ∧ amem st.dataframes newName then
    let st1 :=
      match alookup st.dataframes orig, alookup st.dataframes newName with
      | some dfOrig, some dfNew =>
        { st with
          origDataframesBackup := aset st.origDataframesBackup orig dfOrig,
          dataframes := aset st.dataframes orig dfNew }
      | _, _ => st
    let st2 :=
      match alookup st1.dataArrays orig, alookup st1.dataArrays newName with
      | some _, some arrNew =>
        { st1 with dataArrays := aset st1.dataArrays orig arrNew }
      | _, _ => st1
    let st3 :=
      match alookup st2.dateArrays orig, alookup st2.dateArrays newName with
      | some _, some arrNew =>
        { st2 with dateArrays := aset st2.dateArrays orig arrNew }
      | _, _ => st2
    let st4 :=
      match alookup st3.metadata orig, alookup st3.metadata newName with
      | some _, some mNew =>
        { st3 with metadata := aset st3.metadata orig mNew }
      | _, _ => st3
    let st5 :=
      match alookup st4.dailyDataStartIndex orig,
            alookup st4.dailyDataStartIndex newName with
      | some idxOrig, some idxNew =>
        { st4 with
          origDailyIndicesBackup := aset st4.origDailyIndicesBackup orig idxOrig,
          dailyDataStartIndex := aset st4.dailyDataStartIndex orig idxNew }
      | _, _ => st4
    match alookup st5.monthlyDataStartIndex orig,
          alookup st5.monthlyDataStartIndex newName with
    | some idxOrig, some idxNew =>
      { st5 with
        origMonthlyIndicesBackup := aset st5.origMonthlyIndicesBackup orig idxOrig,
        monthlyDataStartIndex := aset st5.monthlyDataStartIndex orig idxNew }
    | _, _ => st5
  else st

/-- `DataManager._apply_redirection` over the whole redirect dict. -/
def applyRedirection (st : Store) : Store :=
  st.redirectDict.foldl (fun s p => applyRedirectionPair s p.1 p.2) st

/-- `DataManager.restore_original_data` (`manager.py`, lines 388-402): when
backups exist, write the backed-up dataframes and daily/monthly start
offsets back and clear the backups.  The numpy caches `data_arrays` and
`date_arrays` and the `metadata` entries are NOT restored (mirroring the
source). -/
def restoreOriginalData (st : Store) : Store :=
  if st.origDataframesBackup.isEmpty then st
  else
    { st with
      dataframes := aupdate st.dataframes st.origDataframesBackup,
      dailyDataStartIndex :=
        aupdate st.dailyDataStartIndex st.origDailyIndicesBackup,
      monthlyDataStartIndex :=
        aupdate st.monthlyDataStartIndex st.origMonthlyIndicesBackup,
      origDataframesBackup := [],
      origDailyIndicesBackup := [],
      origMonthlyIndicesBackup := [] }

/-! ## Series Validator (`validator.py`) -/

/-- A raw cell of a CSV column as the validator classifies it: a numeric
value (anything `pd.to_numeric` accepts), a null/NaN, a blank string, or a
non-numeric entry. -/
inductive VCell where
  | num (q : ℚ)
  | null
  | blank
  | nonNumeric
deriving DecidableEq, Repr

/-- A raw loaded table: the parsed Date column plus the remaining columns. -/
structure VTable where
  dates : List Date
  cols : List (List VCell)
deriving DecidableEq, Repr

/-- True when the cell is a numeric value. -/
def vcellNumeric : VCell → Bool
  | .num _ => true
  | _ => false

/-- `DataValidator._validate_data_quality` for one column (`validator.py`,
lines 145-160): fails on any null or blank, then on any entry
`pd.to_numeric` rejects — so it passes exactly when every cell is
numeric. -/
def colOk (col : List VCell) : Bool :=
  col.all vcellNumeric

/-- `DataValidator._validate_data_quality` over all non-Date columns. -/
def validateDataQuality (t : VTable) : Bool :=
  t.cols.all colOk

/-- `DataValidator._validate_single_file` (`validator.py`, lines 82-143)
together with the shared body of `_validate_daily_data` and
`_validate_monthly_data` (lines 113-143), which differ only in the
calendar-expansion used for the expected dates; `expand` stands for the
NYSE schedule (daily) or the month-start `pd.date_range` (monthly).
Checks, in order: the table's first date equals the declared start, its
last date equals the declared end (an empty table raises inside the
try block, returning false), the expected sequence has the table's length,
the dates agree at every position, and the data quality check passes. -/
def validateSingleFile (expand : Date → Date → List Date)
    (declStart declEnd : Date) (t : VTable) : Bool :=
  match t.dates with
  | [] => false
  | d0 :: rest =>
    if d0 ≠ declStart then false
    else if (d0 :: rest).getLast (List.cons_ne_nil d0 rest) ≠ declEnd then false
    else
      let expected := expand declStart declEnd
      if expected.length ≠ (d0 :: rest).length then false
      else if ((d0 :: rest).zip expected).any (fun p => p.1 ≠ p.2) then false
      else validateDataQuality t

/-! ## Backtest Engine (`engine.py`) -/

/-- Non-strict date comparison, as on pandas Timestamps. -/
def Date.leb (a b : Date) : Bool :=
  a = b ∨ Date.ltb a b

/-- What a strategy returns after the Strategy Manager normalizes it:
`(date_range, portfolio_values, rebalancing_log)`. -/
structure StratOutput where
  dates : List Date
  values : List ℚ
  log : List (Date × String × String)
deriving DecidableEq, Repr

/-- `BacktestEngine._normalize_to_percents` (`engine.py`, lines 172-179):
the empty series maps to the empty list; otherwise every value is divided
by the first and scaled by 100, which raises ZeroDivisionError when the
first value is zero. -/
def normalizeToPercents (vs : List ℚ) : Except String (List ℚ) :=
  match vs with
  | [] => .ok []
  | v0 :: _ =>
    if v0 = 0 then .error "float division by zero"
    else .ok (vs.map (fun x => x / v0 * 100))

/-- `BacktestEngine._calculate_return` (`engine.py`, lines 181-189):
zero for series shorter than two, else `(last - first) / first * 100`
(raising when the first value is zero). -/
def calculateReturn (vs : List ℚ) : Except String ℚ :=
  if vs.length < 2 then .ok 0
  else
    match vs.head?, vs.getLast? with
    | some first, some last =>
      if first = 0 then .error "float division by zero"
      else .ok ((last - first) / first * 100)
    | _, _ => .ok 0

/-- The loop of `BacktestEngine._calculate_max_drawdown` (`engine.py`,
lines 197-205), carrying the running peak and the maximal drawdown so far;
the division raises when the running peak is zero. -/
def maxDrawdownLoop : List ℚ → ℚ → ℚ → Except String ℚ
  | [], _, maxDd => .ok maxDd
  | v :: rest, peak, maxDd =>
    let peak1 := if peak < v then v else peak
    if peak1 = 0 then .error "float division by zero"
    else
      let dd := (peak1 - v) / peak1
      maxDrawdownLoop rest peak1 (if maxDd < dd then dd else maxDd)

/-- `BacktestEngine._calculate_max_drawdown` (`engine.py`, lines 191-207). -/
def calculateMaxDrawdown (vs : List ℚ) : Except String ℚ :=
  match vs with
  | [] => .ok 0
  | v0 :: _ => (maxDrawdownLoop vs v0 0).map (fun dd => dd * 100)

/-- A backtesting period (`BacktestPeriod`). -/
structure Period where
  name : String
  startDate : Date
  endDate : Date
deriving DecidableEq, Repr

/-- A per-strategy per-period result (`BacktestResult`), restricted to the
fields the claims mention. -/
structure BResult where
  dateRange : List Date
  portfolioValues : List ℚ
  normalizedValues : List ℚ
  totalReturn : ℚ
  maxDrawdown : ℚ
  rebalancingLog : List (Date × String × String)
deriving DecidableEq, Repr

/-- `BacktestEngine._execute_single_backtest` (`engine.py`, lines 143-170)
for a strategy whose execution outcome is `s`: any exception from the
strategy itself or from the metric computations propagates. -/
def executeSingleBacktest (s : Except String StratOutput) :
    Except String BResult :=
  match s with
  | .error e => .error e
  | .ok out =>
    match normalizeToPercents out.values with
    | .error e => .error e
    | .ok norm =>
      match calculateReturn out.values with
      | .error e => .error e
      | .ok ret =>
        match calculateMaxDrawdown out.values with
        | .error e => .error e
        | .ok dd => .ok ⟨out.dates, out.values, norm, ret, dd, out.log⟩

/-- `BacktestEngine._extract_period_from_full_result` (`engine.py`, lines
370-435): the first index with date at or after the period start, the last
index with date at or before the period end, the slice `[start..end]` of
dates and values, re-normalized and re-measured, and the log entries whose
dates fall inside the period. -/
def extractPeriodFromFullResult (full : BResult) (p : Period) :
    Except String BResult :=
  let startIdx := full.dateRange.findIdx? (fun d => Date.leb p.startDate d)
  let endIdx :=
    (List.range full.dateRange.length).foldl
      (fun acc i =>
        if Date.leb (full.dateRange.getD i ⟨0, 0, 0⟩) p.endDate then some i
        else acc)
      none
  match startIdx, endIdx with
  | some s, some e =>
    let dates := slice full.dateRange s (e + 1)
    let vals := slice full.portfolioValues s (e + 1)
    match normalizeToPercents vals with
    | .error msg => .error msg
    | .ok norm =>
      match calculateReturn vals with
      | .error msg => .error msg
      | .ok ret =>
        match calculateMaxDrawdown vals with
        | .error msg => .error msg
        | .ok dd =>
          .ok ⟨dates, vals, norm, ret, dd,
               full.rebalancingLog.filter
                 (fun ent => Date.leb p.startDate ent.1 ∧ Date.leb ent.1 p.endDate)⟩
  | _, _ => .error "Date range not found in full results"

/-- What `run_full_backtest` records for one strategy (`engine.py`, lines
94-129): `none` when the full-period run (or its metric computations)
raises — the except branch logs and continues, so nothing at all is
recorded for that strategy; otherwise the Full Period result plus every
sub-period extraction that succeeds (the inner except skips a failing
extraction and keeps going). -/
def strategyRecord (s : Except String StratOutput) (periods : List Period) :
    Option (List (String × BResult)) :=
  match executeSingleBacktest s with
  | .error _ => none
  | .ok full =>
    some (("Full Period", full) ::
      periods.filterMap (fun p =>
        match extractPeriodFromFullResult full p with
        | .ok r => some (p.name, r)
        | .error _ => none))

/-- `BacktestEngine.run_full_backtest` (`engine.py`, lines 58-141) at the
level the claims discuss: each strategy (closed over its parameters, so
modelled as its execution outcome) is run once for the full period;
`periods` are the declared sub-periods.  The returned association list is
`all_results`. -/
def runFullBacktest (strats : List (String × Except String StratOutput))
    (periods : List Period) : List (String × List (String × BResult)) :=
  strats.foldl
    (fun acc s =>
      match strategyRecord s.2 periods with
      | none => acc
      | some results => acc ++ [(s.1, results)])
    []

/-! ## Concrete fixtures

A small Data Store over three NYSE trading days (2020-01-02, 2020-01-03,
2020-01-06) holding two daily yfinance assets `A` and `B` with full grid
coverage, as a `DataManager` builds it right after `_load_data` (numpy
caches populated from the default `Open` column, no redirection applied
yet). -/

/-- The three-day master daily grid. -/
def gridD : List Date := [⟨2020, 1, 2⟩, ⟨2020, 1, 3⟩, ⟨2020, 1, 6⟩]

/-- Asset A's table. -/
def dfA : DataFrame :=
  ⟨gridD, [("Open", [some 10, some 11, some 12]),
           ("Close", [some (21/2), some (23/2), some (25/2)])]⟩

/-- Asset B's table. -/
def dfB : DataFrame :=
  ⟨gridD, [("Open", [some 20, some 21, some 22]),
           ("Close", [some (41/2), some (43/2), some (45/2)])]⟩

/-- The fixture store. -/
def fixStore : Store :=
  { dataframes := [("A", dfA), ("B", dfB)]
    filenames := [("A", ⟨"yfinance", .daily⟩), ("B", ⟨"yfinance", .daily⟩)]
    dataArrays := [("A", [some 10, some 11, some 12]),
                   ("B", [some 20, some 21, some 22])]
    dateArrays := [("A", gridD), ("B", gridD)]
    metadata := [("A", ⟨"yfinance", .daily⟩), ("B", ⟨"yfinance", .daily⟩)]
    dailyDateRange := gridD
    monthlyDateRange := []
    dailyDataStartIndex := [("A", 0), ("B", 0)]
    monthlyDataStartIndex := []
    origDataframesBackup := []
    origDailyIndicesBackup := []
    origMonthlyIndicesBackup := []
    useExtendedData := false
    maxLookbackDays := 400
    redirectDict := [] }

/-- The accessor context for a backtest starting at the first grid date. -/
def fixCtx : AccessorCtx := ⟨⟨2020, 1, 2⟩, some 0, none⟩

/-! ## Helper lemmas -/

/-- Reading through `aset`: the assigned key answers the new value, any
other key is unaffected. -/
theorem alookup_aset {β : Type} (l : List (String × β)) (k2 : String) (x : β)
    (k : String) :
    alookup (aset l k2 x) k = if k2 = k then some x else alookup l k := by
  induction l with
  | nil =>
    by_cases h : k2 = k <;> simp [aset, alookup, h]
  | cons hd tl ih =>
    obtain ⟨k0, v0⟩ := hd
    by_cases h0 : k0 = k2
    · subst h0
      by_cases h : k0 = k <;> simp [aset, alookup, h]
    · by_cases h : k0 = k
      · subst h
        have hne : ¬ k2 = k0 := fun hc => h0 hc.symm
        simp [aset, alookup, h0, hne]
      · simp [aset, alookup, h0, h, ih]

/-- `osum` over a NaN-free list is the plain sum. -/
theorem osum_map_some (l : List ℚ) : osum (l.map some) = some l.sum := by
  suffices h : ∀ (l : List ℚ) (q : ℚ),
      (l.map some).foldl oadd (some q) = some (q + l.sum) by
    simpa [osum] using h l 0
  intro l
  induction l with
  | nil => intro q; simp
  | cons x xs ih => intro q; simp [oadd, ih, add_assoc]

/-- Slicing commutes with `map`. -/
theorem slice_map {α β : Type} (f : α → β) (l : List α) (a b : Nat) :
    slice (l.map f) a b = (slice l a b).map f := by
  simp [slice, List.map_take, List.map_drop]

/-- The slice of a constant list is constant. -/
theorem slice_replicate (n : Nat) (v : ℚ) (a b : Nat) (hb : b ≤ n) :
    slice (List.replicate n v) a b = List.replicate (b - a) v := by
  simp [slice, List.drop_replicate, List.take_replicate]
  omega

/-- Entry of a mapped-`some` list. -/
theorem getD_map_some (l : List ℚ) (i : Nat) (hi : i < l.length) :
    (l.map some).getD i none = some (l.getD i 0) := by
  induction l generalizing i with
  | nil => simp at hi
  | cons x xs ih =>
    cases i with
    | zero => simp [List.getD]
    | succ j =>
      simp only [List.getD_cons_succ, List.map_cons]
      exact ih j (by simpa using hi)

/-- Entry of a range-map list. -/
theorem get?_range_map {α : Type} (f : Nat → α) (n i : Nat) (h : i < n) :
    ((List.range n).map f).get? i = some (f i) := by
  rw [List.get?_map, List.get?_range h]
  rfl

/-- In-bounds entry of a constant list. -/
theorem get?_replicate_lt {α : Type} (n : Nat) (a : α) (i : Nat) (h : i < n) :
    (List.replicate n a).get? i = some a := by
  simp [List.get?_eq_getElem?, List.getElem?_replicate, h]

/-- In-bounds default read of a constant list. -/
theorem getD_replicate_lt (n : Nat) (v : ℚ) (i : Nat) (h : i < n) :
    (List.replicate n v).getD i 0 = v := by
  simp [List.getD, List.get?_eq_getElem?, List.getElem?_replicate, h]

/-- Two lists of equal length with no mismatching zipped pair are equal. -/
theorem eq_of_zip_no_mismatch :
    ∀ (l1 l2 : List Date), l2.length = l1.length →
      ((l1.zip l2).any (fun p => p.1 ≠ p.2)) = false → l1 = l2 := by
  intro l1
  induction l1 with
  | nil => intro l2 hlen _; cases l2 <;> simp_all
  | cons x xs ih =>
    intro l2 hlen hzip
    cases l2 with
    | nil => simp at hlen
    | cons y ys =>
      simp only [List.zip_cons_cons, List.any_cons, Bool.or_eq_false_iff,
        decide_eq_false_iff_not, not_not] at hzip
      have := ih ys (by simpa using hlen) hzip.2
      simp [hzip.1, this]

/-- Zipping a list with itself produces no mismatching pair. -/
theorem zip_self_no_mismatch (l : List Date) :
    ((l.zip l).any (fun p => p.1 ≠ p.2)) = false := by
  induction l with
  | nil => rfl
  | cons x xs ih =>
    simp only [List.zip_cons_cons, List.any_cons, ih, Bool.or_false]
    simp

/-! ## Claim C9: series normalization -/

/-- Claim C9, amended: for every non-empty portfolio-value series whose
first value is nonzero, normalization produces `value[i] / value[0] * 100`
pointwise, and the first element of the result is exactly 100 (the same
function serves full-period results and extracted sub-period series).  A
non-empty series starting with zero instead raises ZeroDivisionError. -/
theorem c9_normalize_starts_at_100 (vs : List ℚ) (v0 : ℚ)
    (h0 : vs.head? = some v0) (hne : v0 ≠ 0) :
    normalizeToPercents vs = .ok (vs.map (fun x => x / v0 * 100)) ∧
    (vs.map (fun x => x / v0 * 100)).head? = some 100 ∧
    (∀ i, (vs.map (fun x => x / v0 * 100)).get? i =
       (vs.get? i).map (fun x => x / v0 * 100)) := by
  obtain ⟨rest, rfl⟩ : ∃ rest, vs = v0 :: rest := by
    cases vs with
    | nil => simp at h0
    | cons a l =>
      simp only [List.head?_cons, Option.some.injEq] at h0
      exact ⟨l, by rw [h0]⟩
  refine ⟨by simp [normalizeToPercents, hne], ?_, fun i => by rw [List.get?_map]⟩
  simp [div_self hne]

/-- Claim C9, counterexample to the claim as stated: the non-empty series
`[0]` is not normalized to start at 100 — the code raises
ZeroDivisionError on it. -/
theorem c9_counterexample :
    normalizeToPercents [0] = .error "float division by zero" := rfl

/-- Witness for the amended C9 theorem at the series `[50, 25]`. -/
theorem c9_witness :
    normalizeToPercents [(50 : ℚ), 25] =
      .ok ([(50 : ℚ), 25].map (fun x => x / 50 * 100)) ∧
    ([(50 : ℚ), 25].map (fun x => x / 50 * 100)).head? = some 100 :=
  ⟨(c9_normalize_starts_at_100 [50, 25] 50 rfl (by norm_num)).1,
   (c9_normalize_starts_at_100 [50, 25] 50 rfl (by norm_num)).2.1⟩

/-! ## Claim C4: batch error isolation -/

/-- A successful strategy output for the C4 scenario. -/
def goodOut : StratOutput := ⟨[⟨2020, 1, 2⟩, ⟨2020, 1, 3⟩], [100, 110], []⟩

/-- A two-strategy batch whose first strategy raises during its full-period
run. -/
def c4Batch : List (String × Except String StratOutput) :=
  [("bad", .error "IndexError: Negative index -5 requested, which would cycle to end of data"),
   ("good", .ok goodOut)]

/-- Claim C4, amended: for every strategy whose full-period run raises, the
engine catches the error and records nothing at all for that strategy (the
`continue` skips the result assignment, so there is no empty-result entry),
and the surrounding batch is exactly as if the failing strategy were
absent — the remaining strategies still run. -/
theorem c4_failed_strategy_skipped (pre post : List (String × Except String StratOutput))
    (nm : String) (s : Except String StratOutput) (periods : List Period)
    (e : String) (hfail : executeSingleBacktest s = .error e) :
    runFullBacktest (pre ++ (nm, s) :: post) periods =
      runFullBacktest (pre ++ post) periods := by
  have hrec : strategyRecord s periods = none := by
    simp [strategyRecord, hfail]
  simp [runFullBacktest, List.foldl_append, hrec]

/-- Claim C4, counterexample to the claim as stated: in a batch where the
strategy `bad` raises and `good` succeeds, `bad` has no entry in the
results at all (rather than an empty result), while `good` is still
recorded. -/
theorem c4_counterexample :
    alookup (runFullBacktest c4Batch []) "bad" = none ∧
    alookup (runFullBacktest c4Batch []) "good" ≠ none := by
  constructor
  · rfl
  · intro h
    simp [runFullBacktest, c4Batch, strategyRecord, executeSingleBacktest,
      alookup] at h

/-- Witness for the amended C4 theorem on the concrete two-strategy
batch. -/
theorem c4_witness :
    runFullBacktest c4Batch [] = runFullBacktest [("good", .ok goodOut)] [] :=
  c4_failed_strategy_skipped []
    [("good", .ok goodOut)] "bad"
    (.error "IndexError: Negative index -5 requested, which would cycle to end of data")
    [] "IndexError: Negative index -5 requested, which would cycle to end of data" rfl

/-! ## Claim C8: validator characterization -/

/-- Declared start for the C8 counterexample: Saturday 2024-01-06, not a
trading day. -/
def dSat : Date := ⟨2024, 1, 6⟩

/-- Declared end for the C8 counterexample: Monday 2024-01-08. -/
def dMon : Date := ⟨2024, 1, 8⟩

/-- The calendar expansion of `[dSat, dMon]`: only the Monday is a trading
day (as the NYSE schedule returns for that range). -/
def c8Expand : Date → Date → List Date := fun _ _ => [dMon]

/-- A table that matches the calendar expansion exactly and is fully
numeric. -/
def c8Table : VTable := ⟨[dMon], [[.num 1]]⟩

/-- Claim C8, amended: the validator returns true if and only if the
table's date sequence equals the calendar-expanded sequence for the
declared range AND the table's first and last dates equal the declared
start and end dates themselves (so the declared endpoints must be calendar
dates) AND every non-date column is fully numeric. -/
theorem c8_validate_iff (expand : Date → Date → List Date) (s e : Date)
    (t : VTable) :
    validateSingleFile expand s e t = true ↔
      (t.dates.head? = some s ∧ t.dates.getLast? = some e ∧
       t.dates = expand s e ∧ validateDataQuality t = true) := by
  rcases htd : t.dates with _ | ⟨d0, rest⟩
  · simp [validateSingleFile, htd]
  · have hl := List.getLast?_eq_getLast (d0 :: rest) (List.cons_ne_nil d0 rest)
    constructor
    · intro h
      simp only [validateSingleFile, htd] at h
      by_cases h1 : d0 ≠ s
      · rw [if_pos h1] at h; exact absurd h (by simp)
      rw [if_neg h1] at h
      by_cases h2 : (d0 :: rest).getLast (List.cons_ne_nil d0 rest) ≠ e
      · rw [if_pos h2] at h; exact absurd h (by simp)
      rw [if_neg h2] at h
      by_cases h3 : (expand s e).length ≠ (d0 :: rest).length
      · rw [if_pos h3] at h; exact absurd h (by simp)
      rw [if_neg h3] at h
      by_cases h4 : (((d0 :: rest).zip (expand s e)).any (fun p => p.1 ≠ p.2)) = true
      · rw [if_pos h4] at h; exact absurd h (by simp)
      rw [if_neg h4] at h
      have hd0 : d0 = s := not_not.mp h1
      have hlast : (d0 :: rest).getLast (List.cons_ne_nil d0 rest) = e :=
        not_not.mp h2
      have heq : d0 :: rest = expand s e :=
        eq_of_zip_no_mismatch (d0 :: rest) (expand s e) (not_not.mp h3)
          (by simpa using h4)
      exact ⟨by rw [List.head?_cons, hd0], by rw [hl, hlast], heq, h⟩
    · rintro ⟨h1, h2, h3, h4⟩
      have hd0 : d0 = s := by simpa using h1
      have hlast : (d0 :: rest).getLast (List.cons_ne_nil d0 rest) = e := by
        rw [hl] at h2; simpa using h2
      simp only [validateSingleFile, htd]
      rw [if_neg (by simp [hd0]), if_neg (by simp [hlast]), ← h3,
        if_neg (by simp), if_neg (by rw [zip_self_no_mismatch]; simp)]
      exact h4

/-- Claim C8, counterexample to the claim as stated: a table equal to the
calendar expansion of its declared range, fully numeric, is still rejected
because the declared start (a non-trading Saturday) differs from the
table's first date. -/
theorem c8_counterexample :
    c8Table.dates = c8Expand dSat dMon ∧
    validateDataQuality c8Table = true ∧
    validateSingleFile c8Expand dSat dMon c8Table = false :=
  ⟨rfl, rfl, rfl⟩

/-! ## Claim C6: the EMA seed and gap behavior -/

/-- The first-valid scan finds an in-range index preceded only by NaN. -/
theorem firstSomeIdx_spec :
    ∀ (l : List (Option ℚ)) (f : Nat), firstSomeIdx l = some f →
      f < l.length ∧ (∀ i, i < f → l.get? i = some none) := by
  intro l
  induction l with
  | nil => intro f h; simp [firstSomeIdx] at h
  | cons x xs ih =>
    intro f h
    cases x with
    | some q =>
      simp only [firstSomeIdx, Option.some.injEq] at h
      subst h
      exact ⟨by simp, fun i hi => absurd hi (by omega)⟩
    | none =>
      simp only [firstSomeIdx, Option.map_eq_some'] at h
      obtain ⟨j, hj, rfl⟩ := h
      obtain ⟨hjlen, hjpre⟩ := ih j hj
      refine ⟨by simp; omega, ?_⟩
      intro i hi
      cases i with
      | zero => rfl
      | succ i2 =>
        simp only [List.get?_cons_succ]
        exact hjpre i2 (by omega)

/-- A list whose entries are all `some` keeps its length under
`filterMap id`. -/
theorem filterMap_id_length (l : List (Option ℚ))
    (h : ∀ x ∈ l, x.isSome = true) : (l.filterMap id).length = l.length := by
  induction l with
  | nil => rfl
  | cons x xs ih =>
    cases x with
    | none => exact absurd (h none (by simp)) (by simp)
    | some q =>
      have hred : List.filterMap id (some q :: xs) = q :: List.filterMap id xs := by
        simp
      rw [hred, List.length_cons, List.length_cons,
        ih (fun y hy => h y (by simp [hy]))]

/-- A list whose entries are all NaN vanishes under `filterMap id`. -/
theorem filterMap_id_all_none (l : List (Option ℚ))
    (h : ∀ i, i < l.length → l.get? i = some none) : l.filterMap id = [] := by
  induction l with
  | nil => rfl
  | cons x xs ih =>
    have hx := h 0 (by simp)
    simp only [List.get?_cons_zero, Option.some.injEq] at hx
    subst hx
    have hred : List.filterMap id ((none : Option ℚ) :: xs) = List.filterMap id xs := by
      simp
    rw [hred]
    exact ih (fun i hi => by
      have := h (i + 1) (by simpa using Nat.succ_lt_succ hi)
      simpa using this)

/-- Positional characterization of the EMA recursion: each produced entry
is `emaStep` of its predecessor (seed included at position `-1` via the
cons) and the matching input. -/
theorem emaFrom_get (a : ℚ) :
    ∀ (l : List (Option ℚ)) (prev : Option ℚ) (j : Nat), j < l.length →
      (emaFrom a prev l).get? j =
        some (emaStep a ((prev :: emaFrom a prev l).getD j none) (l.getD j none)) := by
  intro l
  induction l with
  | nil => intro prev j hj; simp at hj
  | cons p rest ih =>
    intro prev j hj
    cases j with
    | zero => simp [emaFrom, List.getD]
    | succ j2 =>
      have := ih (emaStep a prev p) j2 (by simpa using hj)
      simpa [emaFrom, List.getD] using this

/-- `getD` through an append, right part. -/
theorem getD_append_right {α : Type} (l1 l2 : List α) (d : α) (m : Nat)
    (h : l1.length ≤ m) : (l1 ++ l2).getD m d = l2.getD (m - l1.length) d := by
  simp [List.getD, ← List.get?_eq_getElem?, List.get?_append_right h]

/-- `getD` through `get?`. -/
theorem getD_as_get? {α : Type} (l : List α) (n : Nat) (d : α) :
    l.getD n d = (l.get? n).getD d := by
  simp [List.getD, List.get?_eq_getElem?]

/-- A successful `get?` determines `getD`. -/
theorem getD_of_get? {α : Type} (l : List α) (n : Nat) (d a : α)
    (h : l.get? n = some a) : l.getD n d = a := by
  rw [getD_as_get?, h]
  rfl

/-- Claim C6, amended: when the `period` entries beginning at the first
valid index `f` are all valid (and fit in the series), the EMA is seeded at
index `f + period - 1` with the simple mean of the first `period` valid
values, every earlier index is NaN, and from index `f + period` on each
entry is the `emaStep` of its predecessor and the input — so a NaN input
carries the previous EMA forward unchanged and a valid input applies the
multiplier `2 / (period + 1)`.  (A NaN strictly inside that seed window
instead aborts the whole computation; see the counterexample.) -/
theorem c6_ema_seed_and_carry (prices : List (Option ℚ)) (period f : Nat)
    (hp : 1 ≤ period)
    (hf : firstSomeIdx prices = some f)
    (hblock : ∀ j, j < period → (prices.getD (f + j) none).isSome = true)
    (hlen : f + period ≤ prices.length) :
    (computeEma prices period).get? (f + period - 1) =
      some (some (((prices.filterMap id).take period).sum / (period : ℚ))) ∧
    (∀ i, i < f + period - 1 → (computeEma prices period).get? i = some none) ∧
    (∀ i, f + period ≤ i → i < prices.length →
       (computeEma prices period).getD i none =
         emaStep (2 / ((period : ℚ) + 1))
           ((computeEma prices period).getD (i - 1) none)
           (prices.getD i none)) := by
  obtain ⟨hflen, hfpre⟩ := firstSomeIdx_spec prices f hf
  have hblock2 : ∀ j, j < period →
      (slice prices f (f + period)).get? j = prices.get? (f + j) := by
    intro j hj
    rw [slice, Nat.add_sub_cancel_left, List.get?_take hj, List.get?_drop]
  have hblocklen : (slice prices f (f + period)).length = period := by
    simp [slice]
    omega
  have hblockall : ∀ x ∈ slice prices f (f + period), x.isSome = true := by
    intro x hx
    obtain ⟨j, hjget⟩ := List.mem_iff_get?.mp hx
    have hjlt : j < period := by
      rw [← hblocklen]
      obtain ⟨hlt, _⟩ := List.get?_eq_some.mp hjget
      exact hlt
    have hget : prices.get? (f + j) = some x := by
      rw [← hblock2 j hjlt]
      exact hjget
    have hb := hblock j hjlt
    rw [getD_of_get? prices (f + j) none x hget] at hb
    exact hb
  have hvalidlen : ((slice prices f (f + period)).filterMap id).length = period := by
    rw [filterMap_id_length _ hblockall, hblocklen]
  have hcompute : computeEma prices period =
      List.replicate (f + period - 1) none ++
        some (((slice prices f (f + period)).filterMap id).sum / (period : ℚ)) ::
          emaFrom (2 / ((period : ℚ) + 1))
            (some (((slice prices f (f + period)).filterMap id).sum / (period : ℚ)))
            (prices.drop (f + period)) := by
    simp only [computeEma, hf]
    rw [if_neg (by omega), if_neg (by rw [hvalidlen]; omega)]
  have hseedeq : (slice prices f (f + period)).filterMap id =
      (prices.filterMap id).take period := by
    have hprefix : (prices.take f).filterMap id = [] := by
      apply filterMap_id_all_none
      intro i hi
      have hif : i < f := by
        have := hi
        rw [List.length_take] at this
        omega
      rw [List.get?_take hif]
      exact hfpre i hif
    have hsplit : prices.drop f =
        slice prices f (f + period) ++ prices.drop (f + period) := by
      rw [slice, Nat.add_sub_cancel_left]
      conv_lhs => rw [← List.take_append_drop period (prices.drop f)]
      rw [List.drop_drop]
    conv_rhs => rw [← List.take_append_drop f prices]
    rw [List.filterMap_append, hprefix, List.nil_append, hsplit,
      List.filterMap_append, List.take_left' hvalidlen]
  refine ⟨?_, ?_, ?_⟩
  · rw [hcompute, List.get?_append_right (by simp), List.length_replicate,
      Nat.sub_self, List.get?_cons_zero, hseedeq]
  · intro i hi
    rw [hcompute, List.get?_append (by simpa using hi),
      get?_replicate_lt _ _ i (by simpa using hi)]
  · intro i hge hlt
    have hj : i - (f + period) < (prices.drop (f + period)).length := by
      rw [List.length_drop]
      omega
    have hstep := emaFrom_get (2 / ((period : ℚ) + 1)) (prices.drop (f + period))
      (some (((slice prices f (f + period)).filterMap id).sum / (period : ℚ)))
      (i - (f + period)) hj
    have hidx1 : i - (f + period - 1) = (i - (f + period)) + 1 := by omega
    have hidx2 : i - 1 - (f + period - 1) = i - (f + period) := by omega
    have hpr : prices.getD i none =
        (prices.drop (f + period)).getD (i - (f + period)) none := by
      rw [getD_as_get?, getD_as_get?, List.get?_drop]
      congr 2
      omega
    rw [hcompute]
    rw [getD_append_right _ _ _ i (by simp; omega),
      getD_append_right _ _ _ (i - 1) (by simp; omega),
      List.length_replicate, hidx1, hidx2]
    rw [List.getD_cons_succ]
    rw [getD_of_get? _ _ _ _ hstep, hpr]

/-- The C6 counterexample input: a NaN gap strictly inside what would be
the seed window. -/
def c6Input : List (Option ℚ) := [some 1, none, some 2, some 3]

/-- Claim C6, counterexample to the claim as stated: the input has two
valid values 1 and 2 (simple mean 3/2), yet the EMA with period 2 is NaN
everywhere — no seed equal to the mean of the first two valid values is
ever placed, because the NaN inside the fixed two-entry window starting at
the first valid index aborts the computation. -/
theorem c6_counterexample :
    computeEma c6Input 2 = [none, none, none, none] ∧
    ((c6Input.filterMap id).take 2).sum / (2 : ℚ) = 3 / 2 ∧
    (computeEma c6Input 2).get? 2 ≠ some (some ((3 : ℚ) / 2)) := by
  refine ⟨by decide, by norm_num [c6Input, List.filterMap_cons], ?_⟩
  intro h
  rw [show computeEma c6Input 2 = [none, none, none, none] from by decide] at h
  simp at h

/-- Witness for the amended C6 theorem on `[1, 2, NaN, 4]` with period 2:
the seed lands at index 1. -/
theorem c6_witness :
    (computeEma [some 1, some 2, none, some 4] 2).get? (0 + 2 - 1) =
      some (some ((([some (1 : ℚ), some 2, none, some 4].filterMap id).take 2).sum /
        ((2 : Nat) : ℚ))) :=
  (c6_ema_seed_and_carry [some 1, some 2, none, some 4] 2 0 (by omega)
    (by decide) (by decide) (by decide)).1

/-! ## Claim C2: redirection round-trip -/

/-- The fixture store constructed with the redirection map `{A: B}` (state
as of `_load_data`, before `_apply_redirection` runs). -/
def c2Store : Store := { fixStore with redirectDict := [("A", "B")] }

/-- The store after `_apply_redirection`. -/
def c2Applied : Store := applyRedirection c2Store

/-- The store after a subsequent `restore_original_data`. -/
def c2Restored : Store := restoreOriginalData c2Applied

/-- Claim C2 (code bug): after `apply({A: B})`, reading A does give B's
values (20 instead of A's 10); but after `restore_original_data`, reading
A STILL returns B's value 20, served from the `data_arrays` numpy cache
which restore never reverts — even though the dataframe backup was written
back correctly and the backups were cleared.  This contradicts the claimed
bit-identical restoration and the function's own stated purpose. -/
theorem c2_restore_keeps_stale_cache :
    (getValue c2Store fixCtx "A" 0 "").1 = .ok (.num 10) ∧
    (getValue c2Applied fixCtx "A" 0 "").1 = .ok (.num 20) ∧
    (getValue c2Applied fixCtx "B" 0 "").1 = .ok (.num 20) ∧
    (getValue c2Restored fixCtx "A" 0 "").1 = .ok (.num 20) ∧
    alookup c2Restored.dataframes "A" = some dfA ∧
    alookup c2Restored.dataArrays "A" = some [some 20, some 21, some 22] ∧
    c2Restored.origDataframesBackup = [] :=
  ⟨rfl, rfl, rfl, rfl, rfl, rfl, rfl⟩

/-! ## Claim C3: what a read may mutate -/

/-- State effect of `_get_property_value`: either the store is untouched,
or (for a property that is neither an existing column nor already cached)
the computed indicator column is appended to the asset's dataframe and to
the composite-key array cache, and nothing else changes. -/
theorem getPropertyValue_state (st : Store) (nm source : String) (idx : Nat)
    (prop : String) :
    (getPropertyValue st nm source idx prop).2 = st ∨
    ∃ df vals,
      alookup st.dataframes nm = some df ∧
      alookup df.cols prop = none ∧
      alookup st.dataArrays (nm ++ "_" ++ prop) = none ∧
      (getPropertyValue st nm source idx prop).2 =
        { st with
          dataframes := aset st.dataframes nm { df with cols := aset df.cols prop vals },
          dataArrays := aset st.dataArrays (nm ++ "_" ++ prop) vals } := by
  simp only [getPropertyValue]
  split
  · left; rfl
  next df h1 =>
    split
    · left; rfl
    next h2 =>
      split
      · left; rfl
      next h3 =>
        split
        next vals h4 =>
          right
          exact ⟨df, vals, h1, h2, h3, rfl⟩
        · left; rfl
        · left; rfl

/-- State effect of a full `get_value` call: unchanged, except on the
first access to an uncached indicator property, which appends the computed
column to the resolved asset's dataframe and the composite-key cache. -/
theorem getValue_state (st : Store) (ctx : AccessorCtx) (name : String)
    (i : Int) (prop : String) :
    (getValue st ctx name i prop).2 = st ∨
    (prop ≠ "" ∧ prop ≠ "Date" ∧
     ∃ df vals,
       alookup st.dataframes (resolveName st name) = some df ∧
       alookup df.cols prop = none ∧
       alookup st.dataArrays (resolveName st name ++ "_" ++ prop) = none ∧
       (getValue st ctx name i prop).2 =
         { st with
           dataframes := aset st.dataframes (resolveName st name)
             { df with cols := aset df.cols prop vals },
           dataArrays := aset st.dataArrays
             (resolveName st name ++ "_" ++ prop) vals }) := by
  simp only [getValue]
  split
  · left; rfl
  next df h1 =>
    split
    · left; rfl
    next meta h2 =>
      split
      · left; rfl
      next di h3 =>
        by_cases h4 : di < 0
        · left
          rw [if_pos h4]
        · rw [if_neg h4]
          simp only [getAtIndex]
          by_cases h5 : prop = ""
          · left
            rw [if_pos h5]
          · rw [if_neg h5]
            by_cases h6 : prop = "Date"
            · left
              rw [if_pos h6]
            · rw [if_neg h6]
              rcases getPropertyValue_state st (resolveName st name) meta.source
                  di.toNat prop with h | ⟨df2, vals, hdf2, hcol, hcache, heq⟩
              · left; exact h
              · right
                exact ⟨h5, h6, df2, vals, hdf2, hcol, hcache, heq⟩

/-- Claim C3, amended: a read through an accessor never changes the grids,
start indices, filenames, date caches, metadata or redirection backups;
reads of the default and Date properties (and of existing columns or
already-cached indicators) leave the store exactly unchanged; the first
read of an uncached indicator property extends the dataframe and the array
cache with the computed column but never alters or removes an existing
cache entry.  Accessor contexts themselves are immutable values, so
accessors bound to different start dates stay independent. -/
theorem c3_reads_extend_cache_only (st : Store) (ctx : AccessorCtx)
    (name : String) (i : Int) (prop : String) :
    ((getValue st ctx name i prop).2.dailyDateRange = st.dailyDateRange ∧
     (getValue st ctx name i prop).2.monthlyDateRange = st.monthlyDateRange ∧
     (getValue st ctx name i prop).2.dailyDataStartIndex = st.dailyDataStartIndex ∧
     (getValue st ctx name i prop).2.monthlyDataStartIndex = st.monthlyDataStartIndex ∧
     (getValue st ctx name i prop).2.filenames = st.filenames ∧
     (getValue st ctx name i prop).2.dateArrays = st.dateArrays ∧
     (getValue st ctx name i prop).2.metadata = st.metadata ∧
     (getValue st ctx name i prop).2.origDataframesBackup = st.origDataframesBackup) ∧
    ((prop = "" ∨ prop = "Date") → (getValue st ctx name i prop).2 = st) ∧
    (∀ k v, alookup st.dataArrays k = some v →
       alookup (getValue st ctx name i prop).2.dataArrays k = some v) := by
  rcases getValue_state st ctx name i prop with
    heq | ⟨hne1, hne2, df, vals, hdf, hcol, hcache, heq⟩
  · rw [heq]
    exact ⟨⟨rfl, rfl, rfl, rfl, rfl, rfl, rfl, rfl⟩, fun _ => rfl, fun k v h => h⟩
  · rw [heq]
    refine ⟨⟨rfl, rfl, rfl, rfl, rfl, rfl, rfl, rfl⟩, ?_, ?_⟩
    · rintro (h | h)
      · exact absurd h hne1
      · exact absurd h hne2
    · intro k v hk
      show alookup (aset st.dataArrays (resolveName st name ++ "_" ++ prop) vals) k =
        some v
      rw [alookup_aset]
      by_cases hkk : resolveName st name ++ "_" ++ prop = k
      · rw [hkk] at hcache
        rw [hcache] at hk
        exact absurd hk (by simp)
      · rw [if_neg hkk]
        exact hk

/-- Claim C3, counterexample to the claim as stated: on the fixture store,
reading the on-demand indicator property `MA2` of asset A mutates the
shared Data Store — the composite cache key `A_MA2` appears in
`data_arrays` (and the dataframe gains a column), so the state after the
call differs from the state before it. -/
theorem c3_counterexample :
    alookup fixStore.dataArrays "A_MA2" = none ∧
    alookup (getValue fixStore fixCtx "A" 0 "MA2").2.dataArrays "A_MA2" ≠ none ∧
    (getValue fixStore fixCtx "A" 0 "MA2").2 ≠ fixStore := by
  have hstate : (getValue fixStore fixCtx "A" 0 "MA2").2.dataArrays =
      aset fixStore.dataArrays "A_MA2"
        (computeMovingAverage [some 10, some 11, some 12]
          [some (21/2), some (23/2), some (25/2)] 2) := rfl
  refine ⟨rfl, ?_, ?_⟩
  · rw [hstate, alookup_aset]
    simp
  · intro h
    have h2 : alookup (getValue fixStore fixCtx "A" 0 "MA2").2.dataArrays "A_MA2" =
        none := by
      rw [h]
      rfl
    rw [hstate, alookup_aset] at h2
    simp at h2

/-- Witness for the amended C3 theorem: a default-property read on the
fixture store returns the store unchanged. -/
theorem c3_witness :
    (getValue fixStore fixCtx "A" 0 "").2 = fixStore :=
  (c3_reads_extend_cache_only fixStore fixCtx "A" 0 "").2.1 (Or.inl rfl)

/-! ## Claim C10: exact-match start-date resolution -/

/-- Claim C10 (confirmed): `get_data_accessor` accepts only a backtest
start date exactly present in the master grid of the relevant frequency.
When the daily grid exists and the date is absent, the exact-match binary
search raises the date-not-found error (before the closure exists, hence
before any per-asset lookup — the accessor construction reads no per-asset
structure); likewise no accessor is produced when a monthly grid exists and
the month-start of the date is absent from it; and whenever an accessor is
produced, its resolved start indices point at exactly the requested
date. -/
theorem c10_start_date_exact_match (st : Store) (d : Date) :
    (st.dailyDateRange.isEmpty = false → d ∉ st.dailyDateRange →
       getDataAccessor st d = .error .dateNotFound) ∧
    (st.monthlyDateRange.isEmpty = false →
       d.firstOfMonth ∉ st.monthlyDateRange →
       ∀ ctx, getDataAccessor st d ≠ .ok ctx) ∧
    (∀ ctx k, getDataAccessor st d = .ok ctx → ctx.dailyStartIndex = some k →
       st.dailyDateRange.get? k = some d) ∧
    (∀ ctx k, getDataAccessor st d = .ok ctx → ctx.monthlyStartIndex = some k →
       st.monthlyDateRange.get? k = some d.firstOfMonth) := by
  refine ⟨?_, ?_, ?_, ?_⟩
  · intro hne habs
    cases hbs : binarySearchDate st.dailyDateRange d with
    | ok k => exact absurd hbs (binarySearchDate_not_mem _ _ habs k)
    | error msg => simp [getDataAccessor, hne, hbs]
  · intro hme habs ctx heq
    cases hde : st.dailyDateRange.isEmpty with
    | true =>
      cases hbs2 : binarySearchDate st.monthlyDateRange d.firstOfMonth with
      | ok k2 => exact absurd hbs2 (binarySearchDate_not_mem _ _ habs k2)
      | error msg => simp [getDataAccessor, hde, hme, hbs2] at heq
    | false =>
      cases hbs : binarySearchDate st.dailyDateRange d with
      | error msg => simp [getDataAccessor, hde, hbs] at heq
      | ok k1 =>
        cases hbs2 : binarySearchDate st.monthlyDateRange d.firstOfMonth with
        | ok k2 => exact absurd hbs2 (binarySearchDate_not_mem _ _ habs k2)
        | error msg => simp [getDataAccessor, hde, hme, hbs, hbs2] at heq
  · intro ctx k heq hctx
    cases hde : st.dailyDateRange.isEmpty with
    | true =>
      cases hme : st.monthlyDateRange.isEmpty with
      | true =>
        simp [getDataAccessor, hde, hme] at heq
        rw [← heq] at hctx
        simp at hctx
      | false =>
        cases hbs2 : binarySearchDate st.monthlyDateRange d.firstOfMonth with
        | ok k2 =>
          simp [getDataAccessor, hde, hme, hbs2] at heq
          rw [← heq] at hctx
          simp at hctx
        | error msg => simp [getDataAccessor, hde, hme, hbs2] at heq
    | false =>
      cases hbs : binarySearchDate st.dailyDateRange d with
      | error msg => simp [getDataAccessor, hde, hbs] at heq
      | ok k1 =>
        have hk1 : st.dailyDateRange.get? k1 = some d :=
          bsAux_ok_sound st.dailyDateRange d _ _ _ k1 hbs
        cases hme : st.monthlyDateRange.isEmpty with
        | true =>
          simp [getDataAccessor, hde, hbs, hme] at heq
          rw [← heq] at hctx
          simp at hctx
          rw [← hctx]
          exact hk1
        | false =>
          cases hbs2 : binarySearchDate st.monthlyDateRange d.firstOfMonth with
          | ok k2 =>
            simp [getDataAccessor, hde, hbs, hme, hbs2] at heq
            rw [← heq] at hctx
            simp at hctx
            rw [← hctx]
            exact hk1
          | error msg => simp [getDataAccessor, hde, hme, hbs, hbs2] at heq
  · intro ctx k heq hctx
    cases hde : st.dailyDateRange.isEmpty with
    | true =>
      cases hme : st.monthlyDateRange.isEmpty with
      | true =>
        simp [getDataAccessor, hde, hme] at heq
        rw [← heq] at hctx
        simp at hctx
      | false =>
        cases hbs2 : binarySearchDate st.monthlyDateRange d.firstOfMonth with
        | ok k2 =>
          have hk2 : st.monthlyDateRange.get? k2 = some d.firstOfMonth :=
            bsAux_ok_sound st.monthlyDateRange d.firstOfMonth _ _ _ k2 hbs2
          simp [getDataAccessor, hde, hme, hbs2] at heq
          rw [← heq] at hctx
          simp at hctx
          rw [← hctx]
          exact hk2
        | error msg => simp [getDataAccessor, hde, hme, hbs2] at heq
    | false =>
      cases hbs : binarySearchDate st.dailyDateRange d with
      | error msg => simp [getDataAccessor, hde, hbs] at heq
      | ok k1 =>
        cases hme : st.monthlyDateRange.isEmpty with
        | true =>
          simp [getDataAccessor, hde, hbs, hme] at heq
          rw [← heq] at hctx
          simp at hctx
        | false =>
          cases hbs2 : binarySearchDate st.monthlyDateRange d.firstOfMonth with
          | ok k2 =>
            have hk2 : st.monthlyDateRange.get? k2 = some d.firstOfMonth :=
              bsAux_ok_sound st.monthlyDateRange d.firstOfMonth _ _ _ k2 hbs2
            simp [getDataAccessor, hde, hbs, hme, hbs2] at heq
            rw [← heq] at hctx
            simp at hctx
            rw [← hctx]
            exact hk2
          | error msg => simp [getDataAccessor, hde, hme, hbs, hbs2] at heq

/-- Witness for C10: the fixture store rejects the non-trading Saturday
2020-01-04 with the date-not-found error, and accepts 2020-01-03 with a
start index pointing at exactly that grid date. -/
theorem c10_witness :
    getDataAccessor fixStore ⟨2020, 1, 4⟩ = .error .dateNotFound ∧
    fixStore.dailyDateRange.get? 1 = some ⟨2020, 1, 3⟩ :=
  ⟨(c10_start_date_exact_match fixStore ⟨2020, 1, 4⟩).1 rfl (by decide),
   (c10_start_date_exact_match fixStore ⟨2020, 1, 3⟩).2.2.1
     ⟨⟨2020, 1, 3⟩, some 1, none⟩ 1 rfl rfl⟩

/-! ## Claim C1: the negative-index guard -/

/-- Claim C1 (confirmed): for every accessor and every `get_value` call,
whenever the resolved absolute data index (start index plus relative index
minus the asset's start offset, with the monthly translation applied for
monthly assets) is negative, the call raises the lookback-exceeded error
and returns no value — in particular no value read from the tail of any
array, since the guard fires before any data access; and an asset whose
own start offset lies beyond the accessor's start index raises already at
relative index 0, for both frequencies. -/
theorem c1_negative_index_guard (st : Store) (ctx : AccessorCtx)
    (name prop : String) :
    (∀ (i : Int) (df : DataFrame) (meta : FileMeta) (di : Int),
       alookup st.dataframes (resolveName st name) = some df →
       alookup st.filenames (resolveName st name) = some meta →
       resolveDataIndex st ctx meta.frequency (resolveName st name) i = .ok di →
       di < 0 →
       getValue st ctx name i prop = (.error .lookbackExceeded, st)) ∧
    (∀ (df : DataFrame) (meta : FileMeta) (dsi off : Nat),
       alookup st.dataframes (resolveName st name) = some df →
       alookup st.filenames (resolveName st name) = some meta →
       meta.frequency = .daily →
       ctx.dailyStartIndex = some dsi →
       alookup st.dailyDataStartIndex (resolveName st name) = some off →
       dsi < off →
       getValue st ctx name 0 prop = (.error .lookbackExceeded, st)) ∧
    (∀ (df : DataFrame) (meta : FileMeta) (msi off : Nat),
       alookup st.dataframes (resolveName st name) = some df →
       alookup st.filenames (resolveName st name) = some meta →
       meta.frequency = .monthly →
       ctx.monthlyStartIndex = some msi →
       alookup st.monthlyDataStartIndex (resolveName st name) = some off →
       (ctx.dailyStartIndex = none ∨
        ∃ dsi d1, ctx.dailyStartIndex = some dsi ∧
          pyIndex st.dailyDateRange (dsi : Int) = some d1) →
       msi < off →
       getValue st ctx name 0 prop = (.error .lookbackExceeded, st)) := by
  have key : ∀ (i : Int) (df : DataFrame) (meta : FileMeta) (di : Int),
      alookup st.dataframes (resolveName st name) = some df →
      alookup st.filenames (resolveName st name) = some meta →
      resolveDataIndex st ctx meta.frequency (resolveName st name) i = .ok di →
      di < 0 →
      getValue st ctx name i prop = (.error .lookbackExceeded, st) := by
    intro i df meta di hdf hfn hres hneg
    simp only [getValue, hdf, hfn, hres]
    rw [if_pos hneg]
  refine ⟨key, ?_, ?_⟩
  · intro df meta dsi off hdf hfn hfreq hdsi hoff hlt
    refine key 0 df meta ((dsi : Int) + 0 - (off : Int)) hdf hfn ?_ (by omega)
    rw [hfreq]
    simp [resolveDataIndex, hdsi, hoff]
  · intro df meta msi off hdf hfn hfreq hmsi hoff hstart hlt
    rcases hstart with hnone | ⟨dsi, d1, hdsi, hpy⟩
    · refine key 0 df meta ((msi : Int) - (off : Int)) hdf hfn ?_ (by omega)
      rw [hfreq]
      simp [resolveDataIndex, hmsi, hoff, hnone]
    · refine key 0 df meta ((msi : Int) + monthsDiff d1 d1 - (off : Int))
        hdf hfn ?_ (by simp [monthsDiff]; omega)
      rw [hfreq]
      simp [resolveDataIndex, hmsi, hoff, hdsi, hpy]

/-- Witness for C1: on the fixture store, reading asset A one bar before
the backtest start raises the lookback-exceeded error. -/
theorem c1_witness :
    getValue fixStore fixCtx "A" (-1) "" = (.error .lookbackExceeded, fixStore) :=
  (c1_negative_index_guard fixStore fixCtx "A" "").1 (-1) dfA
    ⟨"yfinance", .daily⟩ ((0 : Int) + (-1) - (0 : Int)) rfl rfl rfl (by decide)

/-! ## Claim C5: the blended moving average -/

/-- Claim C5 (confirmed): for every table with numeric Open and Close
columns and every period `N ≥ 1`, the `MA<N>` value at each in-range index
`i ≥ N - 1` equals `(Open[i] + Close[i-(N-1)] + ... + Close[i-1]) / N`; it
is NaN for `i < N - 1`; at the first eligible bar of the series start
(`N = 1`, index 0) the value is the opening value alone; and on a
constant-price series of value `v` every defined index yields `v`. -/
theorem c5_moving_average (o c : List ℚ) (N : Nat) (hN : 1 ≤ N)
    (hlen : c.length = o.length) :
    (∀ i, i < o.length → N - 1 ≤ i →
       (computeMovingAverage (o.map some) (c.map some) N).get? i =
         some (some ((o.getD i 0 + (slice c (i - (N - 1)) i).sum) / (N : ℚ)))) ∧
    (∀ i, i < o.length → i < N - 1 →
       (computeMovingAverage (o.map some) (c.map some) N).get? i = some none) ∧
    (N = 1 → 0 < o.length →
       (computeMovingAverage (o.map some) (c.map some) N).get? 0 =
         some (some (o.getD 0 0))) ∧
    (∀ v, o = List.replicate o.length v → c = List.replicate c.length v →
       ∀ i, i < o.length → N - 1 ≤ i →
         (computeMovingAverage (o.map some) (c.map some) N).get? i =
           some (some v)) := by
  have hform : ∀ i, i < o.length → N - 1 ≤ i →
      (computeMovingAverage (o.map some) (c.map some) N).get? i =
        some (some ((o.getD i 0 + (slice c (i - (N - 1)) i).sum) / (N : ℚ))) := by
    intro i hi hNi
    have hNle : N ≤ (o.map some).length := by simp; omega
    simp only [computeMovingAverage]
    rw [if_pos hNle, get?_range_map _ _ i (by simpa using hi)]
    rw [if_pos (by simpa using hNi)]
    by_cases hi0 : i = 0
    · subst hi0
      have hN1 : N = 1 := by omega
      subst hN1
      rw [if_pos rfl, getD_map_some o 0 hi]
      simp [slice]
    · rw [if_neg hi0, getD_map_some o i hi, slice_map, osum_map_some]
      simp [oadd, odivc]
  refine ⟨hform, ?_, ?_, ?_⟩
  · intro i hi hlt
    by_cases hNle : N ≤ (o.map some).length
    · simp only [computeMovingAverage]
      rw [if_pos hNle, get?_range_map _ _ i (by simpa using hi)]
      rw [if_neg (by omega)]
    · simp only [computeMovingAverage]
      rw [if_neg hNle, get?_replicate_lt _ _ i (by simpa using hi)]
  · intro hN1 h0
    rw [hform 0 h0 (by omega), hN1]
    simp [slice]
  · intro v ho hc i hi hNi
    rw [hform i hi hNi]
    have hio : o.getD i 0 = v := by
      conv_lhs => rw [ho]
      exact getD_replicate_lt _ _ _ hi
    have hslice : (slice c (i - (N - 1)) i).sum = ((N - 1 : Nat) : ℚ) * v := by
      conv_lhs => rw [hc]
      rw [slice_replicate _ _ _ _ (by omega : i ≤ c.length)]
      rw [List.sum_replicate]
      have : i - (i - (N - 1)) = N - 1 := by omega
      rw [this, nsmul_eq_mul]
    rw [hio, hslice]
    have hcast : ((N - 1 : Nat) : ℚ) = (N : ℚ) - 1 := by
      push_cast [hN]
      ring
    have hNz : (N : ℚ) ≠ 0 := Nat.cast_ne_zero.mpr (by omega)
    rw [hcast]
    congr 2
    field_simp
    ring

/-- Witness for C5 on the two-bar series Open = [2, 3], Close = [2, 3]
with period 2 at index 1. -/
theorem c5_witness :
    (computeMovingAverage ([(2 : ℚ), 3].map some) ([(2 : ℚ), 3].map some) 2).get? 1 =
      some (some (([(2 : ℚ), 3].getD 1 0 + (slice [(2 : ℚ), 3] 0 1).sum) / (2 : ℚ))) :=
  (c5_moving_average [2, 3] [2, 3] 2 (by omega) rfl).1 1 (by decide) (by decide)

/-! ## Claim C7: RSI bounds -/

/-- An RSI computed from nonnegative average gain and loss lies in
`[0, 100]`. -/
theorem rsiOf_bounds (g l : ℚ) (hg : 0 ≤ g) (hl : 0 ≤ l) :
    0 ≤ rsiOf g l ∧ rsiOf g l ≤ 100 := by
  unfold rsiOf
  by_cases hl0 : l = 0
  · rw [if_pos hl0]
    norm_num
  · rw [if_neg hl0]
    have hlpos : 0 < l := lt_of_le_of_ne hl (Ne.symm hl0)
    have hrs : 0 ≤ g / l := div_nonneg hg hl
    have h1rs : (0 : ℚ) < 1 + g / l := by linarith
    have hdiv_pos : 0 < 100 / (1 + g / l) := by positivity
    have hdiv_le : 100 / (1 + g / l) ≤ 100 := by
      rw [div_le_iff h1rs]
      nlinarith
    constructor <;> linarith

/-- Every per-index gain and loss is nonnegative. -/
theorem gainsLosses_nonneg (prices : List (Option ℚ)) :
    ∀ p ∈ gainsLosses prices, 0 ≤ p.1 ∧ 0 ≤ p.2 := by
  intro p hp
  simp only [gainsLosses, List.mem_map] at hp
  obtain ⟨i, _, rfl⟩ := hp
  by_cases hi0 : i = 0
  · simp [hi0]
  · rw [if_neg hi0]
    cases oadd (prices.getD i none) ((prices.getD (i - 1) none).map Neg.neg) with
    | none => norm_num
    | some d =>
      constructor
      · by_cases h : 0 < d
        · simp [h]; linarith
        · simp [h]
      · by_cases h : d < 0
        · simp [h]; linarith
        · simp [h]

/-- Wilder's smoothing keeps nonnegative pairs nonnegative. -/
theorem wilderFrom_nonneg (N : Nat) (hN : 1 ≤ N) :
    ∀ (rest : List (ℚ × ℚ)) (prev : ℚ × ℚ), 0 ≤ prev.1 → 0 ≤ prev.2 →
      (∀ x ∈ rest, 0 ≤ x.1 ∧ 0 ≤ x.2) →
      ∀ q ∈ wilderFrom N prev rest, 0 ≤ q.1 ∧ 0 ≤ q.2 := by
  have hstep : ∀ (prev gl : ℚ × ℚ), 0 ≤ prev.1 → 0 ≤ prev.2 →
      0 ≤ gl.1 → 0 ≤ gl.2 →
      0 ≤ (wilderStep N prev gl).1 ∧ 0 ≤ (wilderStep N prev gl).2 := by
    intro prev gl h1 h2 h3 h4
    have hN1 : (0 : ℚ) ≤ (N : ℚ) - 1 := by
      have : (1 : ℚ) ≤ (N : ℚ) := by exact_mod_cast hN
      linarith
    have hNpos : (0 : ℚ) ≤ (N : ℚ) := by positivity
    constructor
    · exact div_nonneg (add_nonneg (mul_nonneg h1 hN1) h3) hNpos
    · exact div_nonneg (add_nonneg (mul_nonneg h2 hN1) h4) hNpos
  intro rest
  induction rest with
  | nil => intro prev _ _ _ q hq; simp [wilderFrom] at hq
  | cons x xs ih =>
    intro prev hp1 hp2 hmem q hq
    simp only [wilderFrom, List.mem_cons] at hq
    have hx := hmem x (by simp)
    have hcur := hstep prev x hp1 hp2 hx.1 hx.2
    rcases hq with rfl | hq
    · exact hcur
    · exact ih (wilderStep N prev x) hcur.1 hcur.2
        (fun y hy => hmem y (by simp [hy])) q hq

/-- Every seeded or smoothed average gain/loss pair is nonnegative. -/
theorem rsiPairs_nonneg (prices : List (Option ℚ)) (N : Nat) (hN : 1 ≤ N) :
    ∀ q ∈ rsiPairs prices N, 0 ≤ q.1 ∧ 0 ≤ q.2 := by
  intro q hq
  have hgl := gainsLosses_nonneg prices
  have hslice : ∀ p ∈ slice (gainsLosses prices) 1 (N + 1), 0 ≤ p.1 ∧ 0 ≤ p.2 := by
    intro p hp
    exact hgl p (List.mem_of_mem_drop (List.mem_of_mem_take hp))
  have hseed1 : 0 ≤ ((slice (gainsLosses prices) 1 (N + 1)).map Prod.fst).sum / (N : ℚ) := by
    apply div_nonneg _ (by positivity)
    apply List.sum_nonneg
    intro x hx
    simp only [List.mem_map] at hx
    obtain ⟨p, hp, rfl⟩ := hx
    exact (hslice p hp).1
  have hseed2 : 0 ≤ ((slice (gainsLosses prices) 1 (N + 1)).map Prod.snd).sum / (N : ℚ) := by
    apply div_nonneg _ (by positivity)
    apply List.sum_nonneg
    intro x hx
    simp only [List.mem_map] at hx
    obtain ⟨p, hp, rfl⟩ := hx
    exact (hslice p hp).2
  simp only [rsiPairs, List.mem_cons] at hq
  rcases hq with rfl | hq
  · exact ⟨hseed1, hseed2⟩
  · exact wilderFrom_nonneg N hN _ _ hseed1 hseed2
      (fun y hy => hgl y (List.mem_of_mem_drop hy)) q hq

/-- Claim C7 (confirmed): for every price series and every RSI period
`N ≥ 1`, every defined RSI value lies in `[0, 100]`; and whenever the
Wilder-smoothed average loss at a position is zero, the RSI there is
exactly 100. -/
theorem c7_rsi_bounded (prices : List (Option ℚ)) (N : Nat) (hN : 1 ≤ N) :
    (∀ i x, (computeRsi prices N).get? i = some (some x) → 0 ≤ x ∧ x ≤ 100) ∧
    (∀ j g, N < prices.length → (rsiPairs prices N).get? j = some (g, 0) →
       (computeRsi prices N).get? (N + j) = some (some 100)) := by
  constructor
  · intro i x hget
    simp only [computeRsi] at hget
    by_cases hlen : N < prices.length
    · rw [if_pos hlen] at hget
      rcases lt_or_ge i N with hi | hi
      · rw [List.get?_append (by simpa using hi)] at hget
        rw [get?_replicate_lt _ _ i hi] at hget
        simp at hget
      · rw [List.get?_append_right (by simpa using hi)] at hget
        rw [List.get?_map] at hget
        simp only [List.length_replicate] at hget
        cases hp : (rsiPairs prices N).get? (i - N) with
        | none => rw [hp] at hget; simp at hget
        | some p =>
          rw [hp] at hget
          simp only [Option.map_some', Option.some.injEq] at hget
          have hmem := List.get?_mem hp
          have hnn := rsiPairs_nonneg prices N hN p hmem
          have := rsiOf_bounds p.1 p.2 hnn.1 hnn.2
          rw [hget] at this
          exact this
    · rw [if_neg hlen] at hget
      by_cases hi : i < prices.length
      · rw [get?_replicate_lt _ _ i hi] at hget
        simp at hget
      · rw [List.get?_eq_none.mpr (by simpa using le_of_not_lt hi)] at hget
        simp at hget
  · intro j g hlen hpair
    simp only [computeRsi]
    rw [if_pos hlen]
    rw [List.get?_append_right (by simp)]
    simp only [List.length_replicate, Nat.add_sub_cancel_left]
    rw [List.get?_map, hpair]
    simp [rsiOf]

/-- Witness for C7 on the rising two-bar series `[1, 2]` with period 1:
the single defined RSI value is 100 (zero average loss), inside the
bounds. -/
theorem c7_witness :
    ((0 : ℚ) ≤ 100 ∧ (100 : ℚ) ≤ 100) ∧
    (computeRsi [some 1, some 2] 1).get? (1 + 0) = some (some 100) :=
  ⟨(c7_rsi_bounded [some 1, some 2] 1 (by omega)).1 1 100
     (by norm_num [computeRsi, rsiPairs, gainsLosses, oadd, slice,
           wilderFrom, rsiOf, List.range_succ]),
   (c7_rsi_bounded [some 1, some 2] 1 (by omega)).2 0 1 (by decide)
     (by norm_num [rsiPairs, gainsLosses, oadd, slice, wilderFrom,
           List.range_succ])⟩

end OOSIT
